import Mathlib

/-!
# Verification of the PIS-ADDON normalization and reconciliation engine

Shallow embedding of `src/pis_pis_meter/parser.py` (the canonical revision of
the parser/reconciliation module) together with the divergent sibling revision
`src/pis_pis_meter/pis_pis_meter/parser.py` where a claim refers to it.

Modelling conventions:
* Python `float` currency amounts are modelled as exact rationals (`ℚ`);
  the portal amounts are decimal currency values and the spec treats them as
  decimals.
* Python `datetime.date` is the `Date` structure below (proleptic Gregorian,
  years 1..9999, as CPython).  `date.toordinal` is `Date.toOrdinal`.
* Python strings are `String` / `List Char`; `None`-able string arguments are
  `Option String`.  Functions that catch `ValueError` internally are total
  functions into `Option`.
* Invoices and ledger ("promet") rows are Python dicts with a fixed key set in
  the source; they are modelled as structures whose fields are the parsed
  values (`issue_date` holds the parsed date; the code stores the ISO string
  `d.isoformat()` and re-parses it with `fromisoformat`, an exact round trip).
* The ISO-string sort keys (`inv.get("issue_date") or inv.get("due_date") or ""`)
  compare lexicographically, which for `isoformat` output coincides with the
  numeric order of `(year, month, day)` with the empty string first; this is
  `keyOptDate` below.
-/

namespace PisAddon

/-- Calendar date, modelling Python `datetime.date` (proleptic Gregorian). -/
structure Date where
  year : Nat
  month : Nat
  day : Nat
deriving Repr, DecidableEq

/-- Gregorian leap-year rule, as `calendar.isleap` / `datetime`. -/
def isLeapYear (y : Nat) : Bool :=
  y % 4 == 0 && (y % 100 != 0 || y % 400 == 0)

/-- Number of days of month `m` of year `y`. -/
def daysInMonth (y m : Nat) : Nat :=
  if m = 2 then (if isLeapYear y then 29 else 28)
  else if m = 4 ∨ m = 6 ∨ m = 9 ∨ m = 11 then 30
  else 31

/-- The validity check performed by the `datetime.date` constructor
(`MINYEAR = 1`, `MAXYEAR = 9999`, day within the month). -/
def Date.valid (d : Date) : Bool :=
  1 ≤ d.year && d.year ≤ 9999 && 1 ≤ d.month && d.month ≤ 12 &&
    1 ≤ d.day && d.day ≤ daysInMonth d.year d.month

/-- Model of the raising constructor `date(y, m, d)` wrapped in
`try ... except ValueError: return None`. -/
def mkValidDate (y m d : Nat) : Option Date :=
  if (Date.mk y m d).valid then some (Date.mk y m d) else none

/-- Days before month `m` in a year (leap-aware), helper for `toOrdinal`. -/
def daysBeforeMonth (leap : Bool) (m : Nat) : Nat :=
  let feb := if leap then 29 else 28
  match m with
  | 1 => 0
  | 2 => 31
  | 3 => 31 + feb
  | 4 => 62 + feb
  | 5 => 92 + feb
  | 6 => 123 + feb
  | 7 => 153 + feb
  | 8 => 184 + feb
  | 9 => 215 + feb
  | 10 => 245 + feb
  | 11 => 276 + feb
  | 12 => 306 + feb
  | _ => 337 + feb

/-- Python `date.toordinal`: day count with `0001-01-01 = 1`. -/
def Date.toOrdinal (d : Date) : Nat :=
  365 * (d.year - 1) + ((d.year - 1) / 4 - (d.year - 1) / 100 + (d.year - 1) / 400)
    + daysBeforeMonth (isLeapYear d.year) d.month + d.day

/-- Python `(a - b).days` for two dates. -/
def daysBetween (a b : Date) : Int :=
  (a.toOrdinal : Int) - (b.toOrdinal : Int)

/-- `abs((a - b).days)` when both dates are present, else `0` — the date
penalty used by the reconciliation scoring. -/
def datePenalty (a b : Option Date) : Nat :=
  match a, b with
  | some x, some y => (daysBetween x y).natAbs
  | _, _ => 0

/-- Numeric encoding of an optional ISO date string key: `None`/`""` sorts
first, otherwise lexicographic ISO order = numeric `(y, m, d)` order. -/
def keyOptDate : Option Date → Nat
  | none => 0
  | some d => (d.year * 100 + d.month) * 100 + d.day

/-! ## First-strict-improvement selection

Both candidate searches in `_enrich_invoices_with_payments` and the latest
charge scan in `_maybe_prepend_latest_charge` share one loop shape: skip
elements failing a guard, then replace the running best exactly when the new
score is a strict improvement (`score < best_score`, resp. `dt > latest`).
This keeps the first-encountered optimum.  `selectFirstMin` is that loop. -/

/-- One step of the selection loop. -/
def selectStep {α β : Type} [LinearOrder β] (p : α → Bool) (f : α → β)
    (best : Option (α × β)) (a : α) : Option (α × β) :=
  if p a then
    match best with
    | none => some (a, f a)
    | some (b, fb) => if f a < fb then some (a, f a) else some (b, fb)
  else best

/-- The selection loop: first element of `l.filter p` minimising `f`. -/
def selectFirstMin {α β : Type} [LinearOrder β] (p : α → Bool) (f : α → β)
    (l : List α) : Option (α × β) :=
  l.foldl (selectStep p f) none

/-! ## Data model

Invoices and promet (ledger) rows are dicts in the source; the structures
below carry the parsed fields the core reads.  `issue_date`/`due_date` hold
the parsed dates (the code stores `isoformat()` strings and re-parses them
with `fromisoformat`, an exact round trip).  Raw-text companion keys
(`issue_date_raw`, `amount_raw`, ...) are not read by any computation under
verification and are omitted. -/

structure Invoice where
  number : Option String := none
  description : Option String := none
  issue_date : Option Date := none
  due_date : Option Date := none
  amount : Option ℚ := none
  partner : Option String := none
  iban : Option String := none
  barcode : Option String := none
  paid : Bool := false
  payment_date : Option Date := none
  payment_amount : Option ℚ := none
deriving Repr, DecidableEq

/-- One row of the portal's transaction table ("promet"): parsed date,
description ("Opis"), charge ("Zaduženje") and payment ("Uplata") amounts. -/
structure PrometRow where
  date : Option Date := none
  description : Option String := none
  zaduzenje : Option ℚ := none
  uplata : Option ℚ := none
deriving Repr, DecidableEq

/-- Summary totals read by `_compute_finance_metrics`: the three labels
"Dug iz prethodnog razdoblja", "Ukupno zaduženje", "Ukupna uplata". -/
structure SummaryTotals where
  dug_prev : Option ℚ := none
  ukupno_zaduzenje : Option ℚ := none
  ukupna_uplata : Option ℚ := none
deriving Repr, DecidableEq

/-- A meter reading with its parsed date and parsed integer value. -/
structure Reading where
  date : Option Date := none
  value : Option Int := none
deriving Repr, DecidableEq

/-! ## Reconciliation engine: `_enrich_invoices_with_payments` -/

/-- `EPS = 0.01`, the amount-matching tolerance. -/
def EPS : ℚ := 1 / 100

/-- The charge pool: rows with `zaduzenje_value or 0.0 > 0`, as
`(parsed_date, z)` pairs. -/
def chargeRows (rows : List PrometRow) : List (Option Date × ℚ) :=
  rows.filterMap fun r =>
    let z := r.zaduzenje.getD 0
    if 0 < z then some (r.date, z) else none

/-- The payment pool: rows with `uplata_value or 0.0 > 0`. -/
def paymentRows (rows : List PrometRow) : List (Option Date × ℚ) :=
  rows.filterMap fun r =>
    let u := r.uplata.getD 0
    if 0 < u then some (r.date, u) else none

/-- Charge-candidate score: `diff + date_penalty / 100.0`. -/
def scoreCharge (amount : ℚ) (issue : Option Date) (c : Option Date × ℚ) : ℚ :=
  |c.2 - amount| + (datePenalty c.1 issue : ℚ) / 100

/-- Best charge row for an invoice: candidates within `EPS` of the amount,
first strict minimum of the score wins. -/
def bestCharge (amount : ℚ) (issue : Option Date) (charges : List (Option Date × ℚ)) :
    Option ((Option Date × ℚ) × ℚ) :=
  selectFirstMin (fun c => decide (|c.2 - amount| ≤ EPS)) (scoreCharge amount issue) charges

/-- Payment-candidate score: `abs(days between payment_date and charge_date)`,
`0` when either date is absent. -/
def bestPayment (amount : ℚ) (chargeDate : Option Date) (payments : List (Option Date × ℚ)) :
    Option ((Option Date × ℚ) × ℕ) :=
  selectFirstMin (fun c => decide (|c.2 - amount| ≤ EPS)) (fun c => datePenalty c.1 chargeDate)
    payments

/-- The per-invoice body of the `for inv in invoices` loop. -/
def enrichOne (charges payments : List (Option Date × ℚ)) (inv : Invoice) : Invoice :=
  let base := { inv with paid := false, payment_date := none, payment_amount := none }
  match inv.amount with
  | none => { base with paid := true }
  | some a =>
    if a ≤ 0 then { base with paid := true }
    else
      match bestCharge a inv.issue_date charges with
      | none => base
      | some (c, _) =>
        match bestPayment a c.1 payments with
        | none => base
        | some (p2, _) =>
          { base with paid := true, payment_date := p2.1, payment_amount := some p2.2 }

/-- `_enrich_invoices_with_payments(invoices, promet_rows)`: the in-place dict
mutation becomes a map over the invoice list. -/
def _enrich_invoices_with_payments (invoices : List Invoice) (rows : List PrometRow) :
    List Invoice :=
  invoices.map (enrichOne (chargeRows rows) (paymentRows rows))

/-! ## Sorting (`sorted(..., key=..., reverse=True)` in `build_portal_payload`)

Python's sort is stable; with `reverse=True` it yields the descending order
with equal keys kept in original order.  A stable sort with that contract is
unique, so the insertion sort below is an exact model. -/

/-- The sort key `inv.get("issue_date") or inv.get("due_date") or ""`,
numerically encoded (ISO strings compare lexicographically, which matches
`keyOptDate`). -/
def invSortKey (inv : Invoice) : Nat :=
  keyOptDate (inv.issue_date <|> inv.due_date)

/-- Stable descending insertion: `a` goes before the first element whose key
is not larger, so earlier-listed elements win ties. -/
def insertDescBy {α : Type} (f : α → Nat) (a : α) : List α → List α
  | [] => [a]
  | b :: l => if f b ≤ f a then a :: b :: l else b :: insertDescBy f a l

/-- Stable descending sort by key `f`. -/
def sortDescBy {α : Type} (f : α → Nat) : List α → List α
  | [] => []
  | a :: l => insertDescBy f a (sortDescBy f l)

/-! ## `_maybe_prepend_latest_charge` -/

/-- Rows surviving the two `continue` guards: positive charge and parsed
date, as `(date, row, amount)` triples like the Python `latest_charge`. -/
def latestChargeCandidates (rows : List PrometRow) : List (Date × PrometRow × ℚ) :=
  rows.filterMap fun r =>
    let amount := r.zaduzenje.getD 0
    if amount ≤ 0 then none
    else
      match r.date with
      | none => none
      | some dt => some (dt, r, amount)

/-- The scan `if latest_charge is None or dt > latest_charge[0]`: first
strict maximum by date (first strict minimum in the dual order). -/
def latestCharge (rows : List PrometRow) : Option (Date × PrometRow × ℚ) :=
  (selectFirstMin (fun _ => true) (fun c => OrderDual.toDual c.1.toOrdinal)
    (latestChargeCandidates rows)).map Prod.fst

/-- The synthetic invoice built from a promet charge row (`number` and
`description` both take the row's "Opis"). -/
def mkSyntheticInvoice (dt : Date) (r : PrometRow) (amount : ℚ) : Invoice :=
  { number := r.description, description := r.description,
    issue_date := some dt, amount := some amount }

/-- `_maybe_prepend_latest_charge(promet_rows, invoices)`. -/
def _maybe_prepend_latest_charge (rows : List PrometRow) (invoices : List Invoice) :
    List Invoice :=
  match latestCharge rows with
  | none => invoices
  | some (dt, r, amount) =>
    let newest : Option Date :=
      match invoices with
      | [] => none
      | inv0 :: _ => inv0.issue_date
    match newest with
    | some nd =>
      if dt.toOrdinal ≤ nd.toOrdinal then invoices
      else mkSyntheticInvoice dt r amount :: invoices
    | none => mkSyntheticInvoice dt r amount :: invoices

/-! ## Finance aggregator: `_compute_finance_metrics` -/

structure UnpaidInfo where
  count : Nat
  total : ℚ
  invoices : List Invoice
deriving Repr, DecidableEq

structure YearStats where
  year : Nat
  charges : ℚ
  payments : ℚ
deriving Repr, DecidableEq

/-- The finance report.  The source nests balance/status/previous_debt/
charges_total/payments_total under a "summary" sub-dict; they are flattened
here (pure renaming of access paths). -/
structure Finance where
  balance : ℚ
  status : String
  previous_debt : ℚ
  charges_total : ℚ
  payments_total : ℚ
  latest_invoice : Option Invoice
  unpaid : UnpaidInfo
  year : YearStats
deriving Repr, DecidableEq

/-- Zero-snapping tolerance `EPS = 0.005` of the balance. -/
def EPS_BALANCE : ℚ := 5 / 1000

/-- `_compute_finance_metrics(promet_rows, summary, invoices)`; `today` is the
impure `date.today()` made explicit.  Status strings are the source's
Croatian literals: "podmireno" = settled, "dug" = debt, "preplata" = credit. -/
def _compute_finance_metrics (promet_rows : List PrometRow) (summary : SummaryTotals)
    (invoices : List Invoice) (today : Date) : Finance :=
  let dug_prev := summary.dug_prev.getD 0
  let ukupno_zaduzenje := summary.ukupno_zaduzenje.getD 0
  let ukupna_uplata := summary.ukupna_uplata.getD 0
  let balance0 := dug_prev + ukupno_zaduzenje - ukupna_uplata
  let balance := if |balance0| < EPS_BALANCE then 0 else balance0
  let status :=
    if |balance0| < EPS_BALANCE then "podmireno"
    else if 0 < balance0 then "dug"
    else "preplata"
  let yearRows := promet_rows.filter fun r =>
    match r.date with
    | some d => d.year == today.year
    | none => false
  let year_charges := (yearRows.map fun r => r.zaduzenje.getD 0).sum
  let year_payments := (yearRows.map fun r => r.uplata.getD 0).sum
  let unpaid_invoices := invoices.filter fun inv => !inv.paid && 0 < inv.amount.getD 0
  let unpaid_total := (unpaid_invoices.map fun inv => inv.amount.getD 0).sum
  { balance := balance
    status := status
    previous_debt := dug_prev
    charges_total := ukupno_zaduzenje
    payments_total := ukupna_uplata
    latest_invoice := invoices.head?
    unpaid := { count := unpaid_invoices.length, total := unpaid_total,
                invoices := unpaid_invoices.take 5 }
    year := { year := today.year, charges := year_charges, payments := year_payments } }

/-! ## Consumption aggregators

`_compute_consumption_metrics` is the canonical revision
(`src/pis_pis_meter/parser.py`); `_compute_consumption` is the sibling
revision (`src/pis_pis_meter/pis_pis_meter/parser.py`) whose last-period
block carries the negative-usage guard.  Fields not read by any claim
(rounding of the cost, year-to-date block, monthly table) are omitted. -/

/-- Fixed tariff constant `PRICE_PER_KWH = 0.55`. -/
def PRICE_PER_KWH : ℚ := 55 / 100

structure Consumption where
  last_reading : Option Reading
  previous_reading : Option Reading
  last_period_usage : Option Int
  days_between : Option Int
  avg_daily : Option ℚ
  days_since_last_reading : Option Int
  approx_last_period_cost : Option ℚ
deriving Repr, DecidableEq

/-- `_compute_consumption_metrics(readings)` (canonical revision — note: no
negative-usage guard). -/
def _compute_consumption_metrics (readings : List Reading) (today : Date) : Consumption :=
  let current := readings.head?
  let previous := readings[1]?
  let cv := current.bind (·.value)
  let pv := previous.bind (·.value)
  let cd := current.bind (·.date)
  let pd := previous.bind (·.date)
  let daysSince := cd.map fun cdt => daysBetween today cdt
  match cv, pv, cd, pd with
  | some c, some p, some cdt, some pdt =>
    let usage : Int := c - p
    let days : Int := daysBetween cdt pdt
    let avg : Option ℚ :=
      if 0 < days then some ((usage : ℚ) / (days : ℚ))
      else if days = 0 then some 0
      else none
    { last_reading := current, previous_reading := previous,
      last_period_usage := some usage, days_between := some days, avg_daily := avg,
      days_since_last_reading := daysSince,
      approx_last_period_cost := some ((usage : ℚ) * PRICE_PER_KWH) }
  | _, _, _, _ =>
    { last_reading := current, previous_reading := previous,
      last_period_usage := none, days_between := none, avg_daily := none,
      days_since_last_reading := daysSince,
      approx_last_period_cost := none }

/-- The last-period block of `_compute_consumption(readings)` (sibling
revision): `usage < 0` is treated as a meter anomaly and discarded. -/
def _compute_consumption (readings : List Reading) : Option Int × Option Int × Option ℚ :=
  let current := readings.head?
  let previous := readings[1]?
  let cv := current.bind (·.value)
  let pv := previous.bind (·.value)
  let cd := current.bind (·.date)
  let pd := previous.bind (·.date)
  match cv, pv, cd, pd with
  | some c, some p, some cdt, some pdt =>
    let usage : Int := c - p
    if usage < 0 then (none, none, none)
    else
      let days : Int := daysBetween cdt pdt
      let avg : Option ℚ :=
        if 0 < days then some ((usage : ℚ) / (days : ℚ))
        else if days = 0 then some 0
        else none
      (some usage, some days, avg)
  | _, _, _, _ => (none, none, none)

/-! ## `build_portal_payload` -/

structure Payload where
  finance : Finance
  consumption : Consumption
  recent_invoices : List Invoice
deriving Repr, DecidableEq

/-- `build_portal_payload(readings, promet_rows, summary, invoices, ...)`;
the `racuni_period` pass-through field is omitted (no claim reads it). -/
def build_portal_payload (readings : List Reading) (promet_rows : List PrometRow)
    (summary : SummaryTotals) (invoices : List Invoice) (today : Date) : Payload :=
  let invoices_sorted := sortDescBy invSortKey invoices
  let invoices_sorted2 := _maybe_prepend_latest_charge promet_rows invoices_sorted
  let enriched := _enrich_invoices_with_payments invoices_sorted2 promet_rows
  { finance := _compute_finance_metrics promet_rows summary enriched today
    consumption := _compute_consumption_metrics readings today
    recent_invoices := enriched.take 5 }

/-! ## Primitive normalizers

Models of the four string normalizers of the canonical revision, plus
`_parse_hr_date` of the sibling revision.  Python's `float(...)` / `int(...)`
string conversion is modelled for finite ASCII decimal literals (sign,
underscore-grouped digits, decimal point, exponent); the special texts
`inf` / `infinity` / `nan` and non-ASCII digits are outside the modelled
input domain, as are non-ASCII whitespace code points.  Results are exact
rationals. -/

def digitVal (c : Char) : Nat := c.toNat - 48

def digitsVal (ds : List Char) : Nat :=
  ds.foldl (fun a c => a * 10 + digitVal c) 0

/-- ASCII whitespace stripped by Python `str.strip()` and accepted by `\s`. -/
def isPyWhitespace (c : Char) : Bool :=
  c == ' ' || c == '\t' || c == '\n' || c == '\x0d' || c == '\x0b' || c == '\x0c'

/-- `str.strip()`. -/
def pyStrip (cs : List Char) : List Char :=
  ((cs.dropWhile isPyWhitespace).reverse.dropWhile isPyWhitespace).reverse

/-- Longest prefix that is a Python digit group: digits with single
underscores strictly between digits.  Returns the digits and the rest. -/
def takeDigitRun : List Char → (List Char × List Char)
  | c :: '_' :: c2 :: rest2 =>
    if c.isDigit then
      if c2.isDigit then
        let (ds, r) := takeDigitRun (c2 :: rest2)
        (c :: ds, r)
      else ([c], '_' :: c2 :: rest2)
    else ([], c :: '_' :: c2 :: rest2)
  | c :: rest =>
    if c.isDigit then
      let (ds, r) := takeDigitRun rest
      (c :: ds, r)
    else ([], c :: rest)
  | [] => ([], [])

/-- Sign prefix of a numeric literal. -/
def takeSign : List Char → (Int × List Char)
  | '+' :: r => (1, r)
  | '-' :: r => (-1, r)
  | r => (1, r)

/-- Python `int(text)` on ASCII input: surrounding whitespace, optional sign,
one digit group consuming the whole rest. -/
def pyIntOfChars (cs : List Char) : Option Int :=
  let cs1 := pyStrip cs
  let (sign, cs2) := takeSign cs1
  match takeDigitRun cs2 with
  | ([], _) => none
  | (ds, []) => some (sign * (digitsVal ds : Int))
  | (_, _ :: _) => none

/-- `10 ^ e` for a signed exponent. -/
def pow10 (e : Int) : ℚ :=
  if 0 ≤ e then (10 : ℚ) ^ e.toNat else 1 / (10 : ℚ) ^ (-e).toNat

/-- Exponent suffix and final value of a float literal: mantissa digits
`mant` with `fracLen` digits after the point, then `[eE][+-]?digits` or
nothing. -/
def pyFloatFinish (sign : Int) (mant : Nat) (fracLen : Nat) : List Char → Option ℚ
  | [] => some ((sign * mant : Int) / (10 : ℚ) ^ fracLen)
  | e :: rest =>
    if e == 'e' || e == 'E' then
      let (esign, r2) := takeSign rest
      match takeDigitRun r2 with
      | ([], _) => none
      | (ds, []) =>
        some (((sign * mant : Int) / (10 : ℚ) ^ fracLen) * pow10 (esign * (digitsVal ds : Int)))
      | (_, _ :: _) => none
    else none

/-- Python `float(text)` on finite ASCII decimal literals, as an exact
rational. -/
def pyFloatOfChars (cs : List Char) : Option ℚ :=
  let cs1 := pyStrip cs
  let (sign, cs2) := takeSign cs1
  let (ip, r1) := takeDigitRun cs2
  match r1 with
  | '.' :: r2 =>
    let (fp, r3) := takeDigitRun r2
    if ip.isEmpty && fp.isEmpty then none
    else pyFloatFinish sign (digitsVal (ip ++ fp)) fp.length r3
  | r1 =>
    if ip.isEmpty then none else pyFloatFinish sign (digitsVal ip) 0 r1

/-- `text.replace(str(x), "")` for a single-character pattern. -/
def removeChar (x : Char) (cs : List Char) : List Char :=
  cs.filter (fun c => c != x)

/-- `text.replace("EUR", "")`: left-to-right non-overlapping removal. -/
def removeEUR : List Char → List Char
  | 'E' :: 'U' :: 'R' :: rest => removeEUR rest
  | c :: rest => c :: removeEUR rest
  | [] => []

/-- `_parse_euro_amount(text)`: `None`/empty are falsy; strip "€"/"EUR",
whitespace, thousands dots; decimal comma to point; then `float(...)`. -/
def _parse_euro_amount (s : Option String) : Option ℚ :=
  match s with
  | none => none
  | some str =>
    if str.isEmpty then none
    else
      let cs := removeEUR (removeChar '€' str.data)
      let cs := removeChar ' ' (pyStrip cs)
      let cs := (removeChar '.' cs).map (fun c => if c == ',' then '.' else c)
      pyFloatOfChars cs

/-- `_parse_int_reading(value)`: only `None` short-circuits (the empty string
goes through `int("")`, which fails); dots and spaces removed, then
`int(...)`. -/
def _parse_int_reading (s : Option String) : Option Int :=
  match s with
  | none => none
  | some str =>
    pyIntOfChars (pyStrip (removeChar ' ' (removeChar '.' str.data)))

/-! ### Numeric dates -/

/-- `text.split(".")`. -/
def splitOnDot : List Char → List (List Char)
  | [] => [[]]
  | '.' :: rest => [] :: splitOnDot rest
  | c :: rest =>
    match splitOnDot rest with
    | t :: ts => (c :: t) :: ts
    | [] => [[c]]

def allDigits (t : List Char) : Bool := t.all Char.isDigit

/-- The token language of strptime's `%d`: `3[01]|[12]\d|0[1-9]|[1-9]`,
i.e. one or two digits with value 1..31 (and not "00"). -/
def dayTok (t : List Char) : Option Nat :=
  if allDigits t && (t.length == 1 || t.length == 2) &&
      1 ≤ digitsVal t && digitsVal t ≤ 31 then some (digitsVal t) else none

/-- strptime's `%m`: `1[0-2]|0[1-9]|[1-9]`, value 1..12. -/
def monthTok (t : List Char) : Option Nat :=
  if allDigits t && (t.length == 1 || t.length == 2) &&
      1 ≤ digitsVal t && digitsVal t ≤ 12 then some (digitsVal t) else none

/-- CPython's `%y` two-digit-year pivot: 00-68 map into 2000-2068, 69-99
into 1969-1999. -/
def strptimeYearPivot (yy : Nat) : Nat :=
  if yy ≤ 68 then 2000 + yy else 1900 + yy

/-- `_parse_hr_short_date(text)` (canonical revision): strip and drop spaces,
then `strptime` with `"%d.%m.%Y"`, falling back to `"%d.%m.%y"`.  The two
formats share the day/month sub-patterns, so the string splits at the dots
into a day token, a month token and a year of exactly four (`%Y`) or exactly
two (`%y`) digits; a `ValueError` from the date constructor falls through to
the next format / to `None`. -/
def _parse_hr_short_date (s : Option String) : Option Date :=
  match s with
  | none => none
  | some str =>
    if str.isEmpty then none
    else
      match splitOnDot (removeChar ' ' (pyStrip str.data)) with
      | [d, m, y] =>
        match dayTok d, monthTok m with
        | some dv, some mv =>
          if allDigits y && y.length == 4 then mkValidDate (digitsVal y) mv dv
          else if allDigits y && y.length == 2 then
            mkValidDate (strptimeYearPivot (digitsVal y)) mv dv
          else none
        | _, _ => none
      | _ => none

/-! ### Month-name dates -/

/-- The month-name character class `[A-Za-zčćšđžČĆŠĐŽ]`. -/
def isHrLetter (c : Char) : Bool :=
  ('A' ≤ c && c ≤ 'Z') || ('a' ≤ c && c ≤ 'z') ||
    c == 'č' || c == 'ć' || c == 'š' || c == 'đ' || c == 'ž' ||
    c == 'Č' || c == 'Ć' || c == 'Š' || c == 'Đ' || c == 'Ž'

/-- `str.lower()` restricted to the characters the class admits. -/
def lowerHr (c : Char) : Char :=
  if 'A' ≤ c && c ≤ 'Z' then Char.ofNat (c.toNat + 32)
  else if c == 'Č' then 'č'
  else if c == 'Ć' then 'ć'
  else if c == 'Š' then 'š'
  else if c == 'Đ' then 'đ'
  else if c == 'Ž' then 'ž'
  else c

/-- `HR_MONTHS` of the canonical revision: genitive month names, with the
dialect variant "ozujka" for March. -/
def HR_MONTHS : List (String × Nat) :=
  [("siječnja", 1), ("veljače", 2), ("ožujka", 3), ("ozujka", 3), ("travnja", 4),
   ("svibnja", 5), ("lipnja", 6), ("srpnja", 7), ("kolovoza", 8), ("rujna", 9),
   ("listopada", 10), ("studenog", 11), ("prosinca", 12)]

/-- `(\d{1,2})\.`: one or two digits (greedy, with backtracking) followed by
a literal dot. -/
def matchDay : List Char → Option (Nat × List Char)
  | c1 :: c2 :: c3 :: rest =>
    if c1.isDigit && c2.isDigit && c3 == '.' then
      some (10 * digitVal c1 + digitVal c2, rest)
    else if c1.isDigit && c2 == '.' then some (digitVal c1, c3 :: rest)
    else none
  | [c1, c2] => if c1.isDigit && c2 == '.' then some (digitVal c1, []) else none
  | _ => none

/-- `\s+`: at least one whitespace, then skip the run. -/
def takeWhitespace1 : List Char → Option (List Char)
  | c :: rest => if isPyWhitespace c then some (rest.dropWhile isPyWhitespace) else none
  | [] => none

/-- `_parse_hr_long_date(text)` (canonical revision): `re.match` against
`(\d{1,2})\.\s+([A-Za-zčćšđžČĆŠĐŽ]+)\s+(\d{4})\.?` — a prefix match, so
trailing text after the year is accepted — then the `HR_MONTHS` lookup of
the lowercased name and the raising `date(...)` constructor. -/
def _parse_hr_long_date (s : Option String) : Option Date :=
  match s with
  | none => none
  | some str =>
    if str.isEmpty then none
    else
      match matchDay (pyStrip str.data) with
      | none => none
      | some (day, r1) =>
        match takeWhitespace1 r1 with
        | none => none
        | some r2 =>
          let mrun := r2.takeWhile isHrLetter
          if mrun.isEmpty then none
          else
            match takeWhitespace1 (r2.dropWhile isHrLetter) with
            | none => none
            | some r4 =>
              match r4 with
              | a :: b :: c :: d :: _ =>
                if a.isDigit && b.isDigit && c.isDigit && d.isDigit then
                  match HR_MONTHS.lookup (String.mk (mrun.map lowerHr)) with
                  | none => none
                  | some month => mkValidDate (digitsVal [a, b, c, d]) month day
                else none
              | _ => none

/-- `MONTHS` of the sibling revision's `_parse_hr_date`: genitive and
nominative forms (no ASCII dialect variant). -/
def MONTHS_HR2 : List (String × Nat) :=
  [("siječanj", 1), ("siječnja", 1), ("veljača", 2), ("veljače", 2),
   ("ožujak", 3), ("ožujka", 3), ("travanj", 4), ("travnja", 4),
   ("svibanj", 5), ("svibnja", 5), ("lipanj", 6), ("lipnja", 6),
   ("srpanj", 7), ("srpnja", 7), ("kolovoz", 8), ("kolovoza", 8),
   ("rujan", 9), ("rujna", 9), ("listopad", 10), ("listopada", 10),
   ("studeni", 11), ("studenog", 11), ("prosinac", 12), ("prosinca", 12)]

/-- Helper for `collapseWs`: the flag records whether the previous character
was inside a whitespace run (already replaced by one space). -/
def collapseWsAux : Bool → List Char → List Char
  | _, [] => []
  | inRun, c :: rest =>
    if isPyWhitespace c then
      if inRun then collapseWsAux true rest
      else ' ' :: collapseWsAux true rest
    else c :: collapseWsAux false rest

/-- `re.sub(r"\s+", " ", ...)`: collapse whitespace runs to single spaces. -/
def collapseWs (cs : List Char) : List Char := collapseWsAux false cs

/-- `.rstrip(" .")`. -/
def rstripSpaceDot (cs : List Char) : List Char :=
  (cs.reverse.dropWhile (fun c => c == ' ' || c == '.')).reverse

/-- The cleaning chain of `_parse_hr_date`: strip, replace NBSP by space,
collapse whitespace, strip trailing spaces and dots. -/
def hrDateClean (cs : List Char) : List Char :=
  rstripSpaceDot (collapseWs ((pyStrip cs).map (fun c => if c == '\xa0' then ' ' else c)))

/-- The anchored numeric pattern `^(\d{1,2})\.(\d{1,2})\.(\d{2,4})$` of
`_parse_hr_date`. -/
def hrNumericTriple (cs : List Char) : Option (Nat × Nat × Nat) :=
  match splitOnDot cs with
  | [d, m, y] =>
    if allDigits d && 1 ≤ d.length && d.length ≤ 2 &&
        allDigits m && 1 ≤ m.length && m.length ≤ 2 &&
        allDigits y && 2 ≤ y.length && y.length ≤ 4 then
      some (digitsVal d, digitsVal m, digitsVal y)
    else none
  | _ => none

/-- `_parse_hr_date(text)` (sibling revision): numeric `D.M.YYYY` / `D.M.YY`
first (every two-digit year gets `+2000`), then the anchored month-name
pattern `^(\d{1,2})\.\s*([A-Za-zčćšđžČĆŠĐŽ]+)\s+(\d{2,4})$`. -/
def _parse_hr_date (s : Option String) : Option Date :=
  match s with
  | none => none
  | some str =>
    if str.isEmpty then none
    else
      let cs := hrDateClean str.data
      match hrNumericTriple cs with
      | some (d, m, y) =>
        mkValidDate (if y < 100 then y + 2000 else y) m d
      | none =>
        match matchDay cs with
        | none => none
        | some (day, r1) =>
          let r2 := r1.dropWhile isPyWhitespace
          let mrun := r2.takeWhile isHrLetter
          if mrun.isEmpty then none
          else
            match takeWhitespace1 (r2.dropWhile isHrLetter) with
            | none => none
            | some r4 =>
              if allDigits r4 && 2 ≤ r4.length && r4.length ≤ 4 then
                match MONTHS_HR2.lookup (String.mk (mrun.map lowerHr)) with
                | none => none
                | some month =>
                  let y := digitsVal r4
                  mkValidDate (if y < 100 then y + 2000 else y) month day
              else none

/-- The sort key asserted by claim C7 (spec side, for comparison with the
code's `invSortKey`): issue date, falling back to due date or payment
date. -/
def claimKeyIssueDuePay (i : Invoice) : Nat :=
  keyOptDate (i.issue_date <|> i.due_date <|> i.payment_date)

/-! ## Rendering of numeric date strings (for the C5 acceptance statements) -/

def digitChar (n : Nat) : Char := Char.ofNat (48 + n)

/-- Decimal rendering without padding, for values below 100 (days, months). -/
def natToChars (n : Nat) : List Char :=
  if n < 10 then [digitChar n] else [digitChar (n / 10), digitChar (n % 10)]

/-- Two-digit zero-padded rendering (two-digit years). -/
def pad2 (n : Nat) : List Char := [digitChar (n / 10 % 10), digitChar (n % 10)]

/-- `"D.M.Y"` with the given year digits. -/
def mkNumDateStr (d m : Nat) (y : List Char) : String :=
  String.mk (natToChars d ++ '.' :: (natToChars m ++ '.' :: y))

/-! ## Helper lemmas -/

theorem selectStep_filter {α β : Type} [LinearOrder β] (p : α → Bool) (f : α → β)
    (l : List α) (acc : Option (α × β)) :
    l.foldl (selectStep p f) acc = (l.filter p).foldl (selectStep (fun _ => true) f) acc := by
  induction l generalizing acc with
  | nil => rfl
  | cons a l ih =>
    by_cases hp : p a
    · simp [List.filter_cons, hp, List.foldl_cons, selectStep, ih]
    · simp [List.filter_cons, hp, List.foldl_cons, selectStep, ih]

theorem selectFirstMin_from_some {α β : Type} [LinearOrder β] (f : α → β)
    (l : List α) (b : α) :
    ∃ c l1 l2, l.foldl (selectStep (fun _ => true) f) (some (b, f b)) = some (c, f c) ∧
      b :: l = l1 ++ c :: l2 ∧ (∀ x ∈ l1, f c < f x) ∧ (∀ x ∈ l2, f c ≤ f x) := by
  induction l generalizing b with
  | nil =>
    exact ⟨b, [], [], rfl, rfl, by simp, by simp⟩
  | cons a l ih =>
    by_cases hab : f a < f b
    · obtain ⟨c, l1, l2, hfold, hdec, h1, h2⟩ := ih a
      have hca : f c ≤ f a := by
        rcases l1 with _ | ⟨y, l1⟩
        · simp only [List.nil_append, List.cons.injEq] at hdec
          exact le_of_eq (congrArg f hdec.1.symm)
        · simp only [List.cons_append, List.cons.injEq] at hdec
          have hya : f c < f y := h1 y (by simp)
          rw [← hdec.1] at hya
          exact le_of_lt hya
      refine ⟨c, b :: l1, l2, ?_, ?_, ?_, h2⟩
      · simpa [List.foldl_cons, selectStep, hab] using hfold
      · simp [List.cons_append, hdec]
      · intro x hx
        rcases List.mem_cons.mp hx with rfl | hx
        · exact lt_of_le_of_lt hca hab
        · exact h1 x hx
    · obtain ⟨c, l1, l2, hfold, hdec, h1, h2⟩ := ih b
      have hfold2 : (a :: l).foldl (selectStep (fun _ => true) f) (some (b, f b)) = some (c, f c) := by
        simpa [List.foldl_cons, selectStep, hab] using hfold
      have hba : f b ≤ f a := not_lt.mp hab
      rcases l1 with _ | ⟨y, l1⟩
      · -- the running best `b` survives; `a` joins the tail
        simp only [List.nil_append, List.cons.injEq] at hdec
        refine ⟨c, [], a :: l2, hfold2, ?_, by simp, ?_⟩
        · simp [← hdec.1, ← hdec.2]
        · intro x hx
          rcases List.mem_cons.mp hx with rfl | hx
          · rw [← hdec.1]; exact hba
          · exact h2 x hx
      · -- the optimum `c` is inside `l`; `a` slots in after `b`, before `c`
        simp only [List.cons_append, List.cons.injEq] at hdec
        refine ⟨c, b :: a :: l1, l2, hfold2, ?_, ?_, h2⟩
        · simp [hdec.2]
        · intro x hx
          have hcb : f c < f b := by
            have hy := h1 y (by simp)
            rw [← hdec.1] at hy
            exact hy
          rcases List.mem_cons.mp hx with rfl | hx
          · exact hcb
          · rcases List.mem_cons.mp hx with rfl | hx
            · exact lt_of_lt_of_le hcb hba
            · exact h1 x (by simp [hx])

/-- Full characterization of the selection loop: `none` iff no element passes
the guard; otherwise it returns the first element of `l.filter p` attaining
the minimum of `f`, paired with its score. -/
theorem selectFirstMin_spec {α β : Type} [LinearOrder β] (p : α → Bool) (f : α → β)
    (l : List α) :
    (selectFirstMin p f l = none → l.filter p = []) ∧
    (∀ c s, selectFirstMin p f l = some (c, s) → s = f c ∧
      ∃ l1 l2, l.filter p = l1 ++ c :: l2 ∧ (∀ x ∈ l1, f c < f x) ∧ (∀ x ∈ l2, f c ≤ f x)) := by
  have hbase := selectStep_filter p f l none
  rcases hfil : l.filter p with _ | ⟨a, rest⟩
  · constructor
    · intro _; rfl
    · intro c s hc
      rw [selectFirstMin, hbase, hfil] at hc
      simp at hc
  · have hstep : (selectStep (fun _ => true) f (none : Option (α × β)) a) = some (a, f a) := rfl
    obtain ⟨c, l1, l2, hfold, hdec, h1, h2⟩ := selectFirstMin_from_some f rest a
    have hrun : selectFirstMin p f l = some (c, f c) := by
      rw [selectFirstMin, hbase, hfil, List.foldl_cons, hstep, hfold]
    constructor
    · intro hnone; rw [hrun] at hnone; cases hnone
    · intro c2 s2 hc2
      rw [hrun] at hc2
      obtain ⟨rfl, rfl⟩ : c2 = c ∧ s2 = f c := by
        injection hc2 with h; exact ⟨(congrArg Prod.fst h.symm), (congrArg Prod.snd h.symm)⟩
      exact ⟨rfl, l1, l2, hdec, h1, h2⟩


theorem mkValidDate_all_valid (y m d : Nat) :
    (mkValidDate y m d).all Date.valid = true := by
  unfold mkValidDate
  split
  · simpa using ‹_›
  · rfl

theorem mkValidDate_valid (y m d : Nat) (dd : Date) (h : mkValidDate y m d = some dd) :
    dd.valid = true := by
  have hall := mkValidDate_all_valid y m d
  rw [h] at hall
  simpa using hall

theorem shortDate_all_valid (s : Option String) :
    (_parse_hr_short_date s).all Date.valid = true := by
  cases s with
  | none => rfl
  | some str =>
    unfold _parse_hr_short_date
    repeat' (first | split | dsimp only)
    all_goals first | rfl | apply mkValidDate_all_valid

theorem longDate_all_valid (s : Option String) :
    (_parse_hr_long_date s).all Date.valid = true := by
  cases s with
  | none => rfl
  | some str =>
    unfold _parse_hr_long_date
    repeat' (first | split | dsimp only)
    all_goals first | rfl | apply mkValidDate_all_valid

set_option maxRecDepth 8192 in
theorem hrDate_all_valid (s : Option String) :
    (_parse_hr_date s).all Date.valid = true := by
  cases s with
  | none => rfl
  | some str =>
    unfold _parse_hr_date
    repeat' (first | split | dsimp only)
    all_goals first | rfl | apply mkValidDate_all_valid

theorem enrichOne_number (c p : List (Option Date × ℚ)) (i : Invoice) :
    (enrichOne c p i).number = i.number := by
  unfold enrichOne
  repeat' split
  all_goals rfl

theorem enrichOne_description (c p : List (Option Date × ℚ)) (i : Invoice) :
    (enrichOne c p i).description = i.description := by
  unfold enrichOne
  repeat' split
  all_goals rfl

theorem enrichOne_issue_date (c p : List (Option Date × ℚ)) (i : Invoice) :
    (enrichOne c p i).issue_date = i.issue_date := by
  unfold enrichOne
  repeat' split
  all_goals rfl

theorem enrichOne_due_date (c p : List (Option Date × ℚ)) (i : Invoice) :
    (enrichOne c p i).due_date = i.due_date := by
  unfold enrichOne
  repeat' split
  all_goals rfl

theorem enrichOne_amount (c p : List (Option Date × ℚ)) (i : Invoice) :
    (enrichOne c p i).amount = i.amount := by
  unfold enrichOne
  repeat' split
  all_goals rfl

theorem enrichOne_partner (c p : List (Option Date × ℚ)) (i : Invoice) :
    (enrichOne c p i).partner = i.partner := by
  unfold enrichOne
  repeat' split
  all_goals rfl

theorem enrichOne_iban (c p : List (Option Date × ℚ)) (i : Invoice) :
    (enrichOne c p i).iban = i.iban := by
  unfold enrichOne
  repeat' split
  all_goals rfl

theorem enrichOne_barcode (c p : List (Option Date × ℚ)) (i : Invoice) :
    (enrichOne c p i).barcode = i.barcode := by
  unfold enrichOne
  repeat' split
  all_goals rfl

/-- An invoice the enrichment leaves unpaid has a present, positive amount. -/
theorem enrichOne_unpaid_amount_pos (c p : List (Option Date × ℚ)) (i : Invoice)
    (h : (enrichOne c p i).paid = false) : 0 < (enrichOne c p i).amount.getD 0 := by
  rw [enrichOne_amount]
  unfold enrichOne at h
  rcases hA : i.amount with _ | a
  · rw [hA] at h; simp at h
  · rw [hA] at h
    simp only [hA, Option.getD_some]
    by_cases ha : a ≤ 0
    · simp [ha] at h
    · exact lt_of_not_le ha

/-- Amount absent or nonpositive forces the `paid = True` short-circuit with
no payment fields. -/
theorem enrichOne_nonpositive (c p : List (Option Date × ℚ)) (i : Invoice)
    (h : i.amount = none ∨ ∃ a, i.amount = some a ∧ a ≤ 0) :
    (enrichOne c p i).paid = true ∧ (enrichOne c p i).payment_date = none ∧
      (enrichOne c p i).payment_amount = none := by
  unfold enrichOne
  rcases h with h | ⟨a, ha, hle⟩
  · rw [h]; exact ⟨rfl, rfl, rfl⟩
  · rw [ha]
    simp [hle]

/-! ## Claim theorems -/

/-- C1: after reconciliation, every invoice whose amount is absent or ≤ 0 has
`paid = true` and absent `payment_date` / `payment_amount`, for every input
invoice list and ledger-row list. -/
theorem claim_C1_nonpositive_amount_paid (invoices : List Invoice) (rows : List PrometRow)
    (inv : Invoice) (hmem : inv ∈ _enrich_invoices_with_payments invoices rows)
    (hamt : inv.amount = none ∨ ∃ a, inv.amount = some a ∧ a ≤ 0) :
    inv.paid = true ∧ inv.payment_date = none ∧ inv.payment_amount = none := by
  unfold _enrich_invoices_with_payments at hmem
  obtain ⟨i0, _, rfl⟩ := List.mem_map.mp hmem
  apply enrichOne_nonpositive
  rwa [enrichOne_amount] at hamt

theorem claim_C1_witness :
    ∃ inv, inv ∈ _enrich_invoices_with_payments [{ amount := none }] [] ∧
      inv.paid = true ∧ inv.payment_date = none ∧ inv.payment_amount = none := by
  refine ⟨_, List.mem_singleton.mpr rfl, ?_⟩
  exact claim_C1_nonpositive_amount_paid [{ amount := none }] []
    (enrichOne (chargeRows []) (paymentRows []) { amount := none })
    (List.mem_singleton.mpr rfl) (Or.inl (enrichOne_amount _ _ _))

/-- C4: the claim (and the spec) require a negative last-period usage to be
discarded as a meter anomaly.  The sibling revision `_compute_consumption`
implements exactly that guard, but the canonical revision
`_compute_consumption_metrics` reports the negative difference: on readings
`[(2025-02-01, 90), (2025-01-01, 100)]` it yields `-10` where the claim
requires absence. -/
theorem claim_C4_negative_usage_divergence :
    (_compute_consumption_metrics
        [{ date := some (Date.mk 2025 2 1), value := some 90 },
         { date := some (Date.mk 2025 1 1), value := some 100 }]
        (Date.mk 2025 6 1)).last_period_usage = some (-10) ∧
    (_compute_consumption
        [{ date := some (Date.mk 2025 2 1), value := some 90 },
         { date := some (Date.mk 2025 1 1), value := some 100 }]).1 = none := by
  constructor
  · rfl
  · rfl

/-- C8: amount normalization — the four documented examples: currency symbol
and whitespace stripped, thousands dot removed, decimal comma converted, and
absence on empty / non-numeric input. -/
theorem claim_C8_amount_parsing :
    _parse_euro_amount (some "531,14 €") = some (53114 / 100 : ℚ) ∧
    _parse_euro_amount (some "1.234,56") = some (123456 / 100 : ℚ) ∧
    _parse_euro_amount (some "") = none ∧
    _parse_euro_amount (some "abc") = none := by
  exact ⟨rfl, rfl, rfl, rfl⟩

/-- C9: the four primitive normalizers of the canonical revision are total on
string-or-null input (the model is a total function; every raising conversion
in the source is wrapped in try/except) and never partially fill a result:
each date result is a fully valid calendar date, and null input yields total
absence in all four. -/
theorem claim_C9_normalizers_total :
    (∀ s : Option String,
      (_parse_hr_long_date s).all Date.valid = true ∧
      (_parse_hr_short_date s).all Date.valid = true) ∧
    _parse_euro_amount none = none ∧ _parse_int_reading none = none ∧
    _parse_hr_long_date none = none ∧ _parse_hr_short_date none = none := by
  exact ⟨fun s => ⟨longDate_all_valid s, shortDate_all_valid s⟩, rfl, rfl, rfl, rfl⟩

/-- C10: the reconciliation enrichment is a per-invoice map — it preserves
the length and order of the invoice list and every field other than `paid`,
`payment_date`, `payment_amount`; the ledger rows are only read (the model
returns them unchanged by construction, mirroring a source loop that never
writes to a row). -/
theorem claim_C10_enrich_frame (invoices : List Invoice) (rows : List PrometRow) :
    (_enrich_invoices_with_payments invoices rows).length = invoices.length ∧
    (_enrich_invoices_with_payments invoices rows).map (fun i => i.number) =
      invoices.map (fun i => i.number) ∧
    (_enrich_invoices_with_payments invoices rows).map (fun i => i.description) =
      invoices.map (fun i => i.description) ∧
    (_enrich_invoices_with_payments invoices rows).map (fun i => i.issue_date) =
      invoices.map (fun i => i.issue_date) ∧
    (_enrich_invoices_with_payments invoices rows).map (fun i => i.due_date) =
      invoices.map (fun i => i.due_date) ∧
    (_enrich_invoices_with_payments invoices rows).map (fun i => i.amount) =
      invoices.map (fun i => i.amount) ∧
    (_enrich_invoices_with_payments invoices rows).map (fun i => i.partner) =
      invoices.map (fun i => i.partner) ∧
    (_enrich_invoices_with_payments invoices rows).map (fun i => i.iban) =
      invoices.map (fun i => i.iban) ∧
    (_enrich_invoices_with_payments invoices rows).map (fun i => i.barcode) =
      invoices.map (fun i => i.barcode) := by
  unfold _enrich_invoices_with_payments
  refine ⟨List.length_map _ _, ?_, ?_, ?_, ?_, ?_, ?_, ?_, ?_⟩
  all_goals
    rw [List.map_map]
    apply List.map_congr_left
    intro i _
    simp only [Function.comp_apply]
  · exact enrichOne_number _ _ _
  · exact enrichOne_description _ _ _
  · exact enrichOne_issue_date _ _ _
  · exact enrichOne_due_date _ _ _
  · exact enrichOne_amount _ _ _
  · exact enrichOne_partner _ _ _
  · exact enrichOne_iban _ _ _
  · exact enrichOne_barcode _ _ _

/-- C3: the finance aggregator computes
`balance = previous_debt + total_charges - total_payments` from the summary
totals (absent values default to 0); `|balance| < 0.005` snaps the reported
balance to exactly 0 with the settled status ("podmireno"), a positive
balance reports debt ("dug"), a negative one credit ("preplata"); in
particular `previous_debt = 10.00, charges = 0.00, payments = 10.004` yields
balance 0 and settled. -/
theorem claim_C3_balance_snapping :
    (∀ (rows : List PrometRow) (summary : SummaryTotals) (invoices : List Invoice)
      (today : Date),
      (_compute_finance_metrics rows summary invoices today).balance =
        (if |summary.dug_prev.getD 0 + summary.ukupno_zaduzenje.getD 0 -
              summary.ukupna_uplata.getD 0| < EPS_BALANCE then 0
         else summary.dug_prev.getD 0 + summary.ukupno_zaduzenje.getD 0 -
              summary.ukupna_uplata.getD 0) ∧
      (_compute_finance_metrics rows summary invoices today).status =
        (if |summary.dug_prev.getD 0 + summary.ukupno_zaduzenje.getD 0 -
              summary.ukupna_uplata.getD 0| < EPS_BALANCE then "podmireno"
         else if 0 < summary.dug_prev.getD 0 + summary.ukupno_zaduzenje.getD 0 -
              summary.ukupna_uplata.getD 0 then "dug"
         else "preplata") ∧
      (_compute_finance_metrics rows summary invoices today).previous_debt =
        summary.dug_prev.getD 0 ∧
      (_compute_finance_metrics rows summary invoices today).charges_total =
        summary.ukupno_zaduzenje.getD 0 ∧
      (_compute_finance_metrics rows summary invoices today).payments_total =
        summary.ukupna_uplata.getD 0) ∧
    (_compute_finance_metrics []
        { dug_prev := some 10, ukupno_zaduzenje := some 0,
          ukupna_uplata := some (10004 / 1000) } [] (Date.mk 2025 6 1)).balance = 0 ∧
    (_compute_finance_metrics []
        { dug_prev := some 10, ukupno_zaduzenje := some 0,
          ukupna_uplata := some (10004 / 1000) } [] (Date.mk 2025 6 1)).status =
      "podmireno" := by
  refine ⟨fun rows summary invoices today => ⟨rfl, rfl, rfl, rfl, rfl⟩, ?_, ?_⟩
  · with_unfolding_all rfl
  · with_unfolding_all rfl

/-- C2: for an invoice with positive amount the engine keeps the candidate
charge rows within `EPS = 0.01` of the amount and selects the first one
minimising `amount_diff + date_penalty / 100` (date penalty 0 when either
date is absent; strict improvement replaces, so ties keep first-encountered
order); an invoice of 100.00 matches a charge of 100.01 and is then marked
paid from the matching payment row, while with a charge of 100.02 no charge
matches and the invoice stays unpaid with no payment fields. -/
theorem claim_C2_charge_matching :
    (∀ (amount : ℚ) (issue : Option Date) (charges : List (Option Date × ℚ)),
      (bestCharge amount issue charges = none →
        charges.filter (fun c => decide (|c.2 - amount| ≤ EPS)) = []) ∧
      (∀ c s, bestCharge amount issue charges = some (c, s) →
        s = scoreCharge amount issue c ∧
        ∃ l1 l2, charges.filter (fun c => decide (|c.2 - amount| ≤ EPS)) = l1 ++ c :: l2 ∧
          (∀ x ∈ l1, scoreCharge amount issue c < scoreCharge amount issue x) ∧
          (∀ x ∈ l2, scoreCharge amount issue c ≤ scoreCharge amount issue x))) ∧
    (_enrich_invoices_with_payments [{ amount := some 100 }]
        [{ zaduzenje := some (10001 / 100) }, { uplata := some 100 }]).map
        (fun i => (i.paid, i.payment_date, i.payment_amount)) =
      [(true, none, some 100)] ∧
    (_enrich_invoices_with_payments [{ amount := some 100 }]
        [{ zaduzenje := some (10002 / 100) }, { uplata := some 100 }]).map
        (fun i => (i.paid, i.payment_date, i.payment_amount)) =
      [(false, none, none)] := by
  refine ⟨fun amount issue charges => selectFirstMin_spec _ _ charges, ?_, ?_⟩
  · with_unfolding_all rfl
  · with_unfolding_all rfl

theorem claim_C2_witness :
    ∃ l1 l2,
      [((none : Option Date), (10001 / 100 : ℚ))].filter
          (fun c => decide (|c.2 - (100 : ℚ)| ≤ EPS)) =
        l1 ++ ((none : Option Date), (10001 / 100 : ℚ)) :: l2 ∧
      (∀ x ∈ l1, scoreCharge 100 none ((none : Option Date), (10001 / 100 : ℚ)) <
        scoreCharge 100 none x) ∧
      (∀ x ∈ l2, scoreCharge 100 none ((none : Option Date), (10001 / 100 : ℚ)) ≤
        scoreCharge 100 none x) :=
  ((claim_C2_charge_matching.1 100 none [(none, 10001 / 100)]).2
    (none, 10001 / 100) (1 / 100) (by with_unfolding_all rfl)).2

/-! ## Sorting and roll-up lemmas -/

theorem mem_insertDescBy {α : Type} (f : α → Nat) (a x : α) (l : List α) :
    x ∈ insertDescBy f a l ↔ x = a ∨ x ∈ l := by
  induction l with
  | nil => simp [insertDescBy]
  | cons b l ih =>
    by_cases h : f b ≤ f a
    · simp [insertDescBy, h]
    · simp only [insertDescBy, h, if_false, List.mem_cons, ih]
      tauto

theorem pairwise_insertDescBy {α : Type} (f : α → Nat) (a : α) (l : List α)
    (hl : l.Pairwise (fun x y => f y ≤ f x)) :
    (insertDescBy f a l).Pairwise (fun x y => f y ≤ f x) := by
  induction l with
  | nil => simp [insertDescBy]
  | cons b l ih =>
    rcases List.pairwise_cons.mp hl with ⟨hb, hl2⟩
    by_cases h : f b ≤ f a
    · simp only [insertDescBy, h, if_true]
      refine List.pairwise_cons.mpr ⟨?_, hl⟩
      intro y hy
      rcases List.mem_cons.mp hy with rfl | hy
      · exact h
      · exact le_trans (hb y hy) h
    · simp only [insertDescBy, h, if_false]
      refine List.pairwise_cons.mpr ⟨?_, ih hl2⟩
      intro y hy
      rcases (mem_insertDescBy f a y l).mp hy with rfl | hy
      · exact le_of_lt (lt_of_not_le h)
      · exact hb y hy

theorem sortDescBy_pairwise {α : Type} (f : α → Nat) (l : List α) :
    (sortDescBy f l).Pairwise (fun x y => f y ≤ f x) := by
  induction l with
  | nil => exact List.Pairwise.nil
  | cons a l ih => exact pairwise_insertDescBy f a _ ih

theorem mem_sortDescBy {α : Type} (f : α → Nat) (x : α) (l : List α) :
    x ∈ sortDescBy f l ↔ x ∈ l := by
  induction l with
  | nil => exact Iff.rfl
  | cons a l ih => simp [sortDescBy, mem_insertDescBy, ih]

/-- The head of the stable descending sort carries a maximal key. -/
theorem sortDescBy_head_max {α : Type} (f : α → Nat) (l : List α) (a : α) (rest : List α)
    (h : sortDescBy f l = a :: rest) : ∀ x ∈ l, f x ≤ f a := by
  intro x hx
  have hx2 : x ∈ sortDescBy f l := (mem_sortDescBy f x l).mpr hx
  rw [h] at hx2
  rcases List.mem_cons.mp hx2 with rfl | hx2
  · exact le_refl _
  · have hp := sortDescBy_pairwise f l
    rw [h] at hp
    exact (List.pairwise_cons.mp hp).1 x hx2

/-- After enrichment, `paid == false` already implies a positive amount, so
the aggregator's filter `not paid and amount > 0` equals the plain
`not paid` filter. -/
theorem enrich_filter_unpaid (invoices : List Invoice) (rows : List PrometRow) :
    (_enrich_invoices_with_payments invoices rows).filter
        (fun inv => !inv.paid && 0 < inv.amount.getD 0) =
      (_enrich_invoices_with_payments invoices rows).filter (fun inv => !inv.paid) := by
  apply List.filter_congr
  intro i hi
  unfold _enrich_invoices_with_payments at hi
  obtain ⟨i0, _, rfl⟩ := List.mem_map.mp hi
  cases hp : (enrichOne (chargeRows rows) (paymentRows rows) i0).paid with
  | true => simp [hp]
  | false =>
    have hpos := enrichOne_unpaid_amount_pos (chargeRows rows) (paymentRows rows) i0 hp
    simp [hp, hpos]

/-- `_maybe_prepend_latest_charge` returns the invoice list unchanged or with
exactly one synthetic invoice prepended. -/
theorem maybePrepend_shape (rows : List PrometRow) (invs : List Invoice) :
    _maybe_prepend_latest_charge rows invs = invs ∨
      ∃ syn, _maybe_prepend_latest_charge rows invs = syn :: invs := by
  unfold _maybe_prepend_latest_charge
  repeat' (first | split | dsimp only)
  all_goals first | exact Or.inl rfl | exact Or.inr ⟨_, rfl⟩

/-- C6 counterexample: the detail list is not ordered by issue date with
absent issue dates first — an invoice with no issue date but a newer due
date is listed before one with an older issue date, because the sort key
falls back to the due date. -/
theorem claim_C6_counterexample :
    ¬ List.Pairwise (fun x y => keyOptDate y.issue_date ≤ keyOptDate x.issue_date)
      ((build_portal_payload [] [] {}
          [{ number := some "B", issue_date := some (Date.mk 2024 6 1), amount := some 7 },
           { number := some "A", due_date := some (Date.mk 2025 1 1), amount := some 5 }]
          (Date.mk 2025 6 1)).finance.unpaid.invoices) := by
  intro h
  have hmap : ((build_portal_payload [] [] {}
          [{ number := some "B", issue_date := some (Date.mk 2024 6 1), amount := some 7 },
           { number := some "A", due_date := some (Date.mk 2025 1 1), amount := some 5 }]
          (Date.mk 2025 6 1)).finance.unpaid.invoices).map
        (fun i => keyOptDate i.issue_date) = [0, 20240601] := by
    with_unfolding_all rfl
  have h2 : (((build_portal_payload [] [] {}
          [{ number := some "B", issue_date := some (Date.mk 2024 6 1), amount := some 7 },
           { number := some "A", due_date := some (Date.mk 2025 1 1), amount := some 5 }]
          (Date.mk 2025 6 1)).finance.unpaid.invoices).map
        (fun i => keyOptDate i.issue_date)).Pairwise (fun x y => y ≤ x) :=
    List.pairwise_map.mpr h
  rw [hmap] at h2
  have h3 := (List.pairwise_cons.mp h2).1 20240601 (by simp)
  omega

/-- C6 amended: the unpaid roll-up of the built payload filters the
reconciled invoices to exactly `paid == false` (the extra `amount > 0` test
is redundant after enrichment), reports their count and amount sum, and the
detail list is the first at-most-5 unpaid invoices in the order of the
reconciled list; that order is the stable descending sort by issue date
falling back to due date (absent both sorting earliest), possibly with one
synthetic charge invoice prepended ahead of it. -/
theorem claim_C6_amended_unpaid_rollup (readings : List Reading) (rows : List PrometRow)
    (summary : SummaryTotals) (invoices : List Invoice) (today : Date) :
    (build_portal_payload readings rows summary invoices today).finance.unpaid.invoices =
      ((_enrich_invoices_with_payments
          (_maybe_prepend_latest_charge rows (sortDescBy invSortKey invoices)) rows).filter
        (fun i => !i.paid)).take 5 ∧
    (build_portal_payload readings rows summary invoices today).finance.unpaid.count =
      ((_enrich_invoices_with_payments
          (_maybe_prepend_latest_charge rows (sortDescBy invSortKey invoices)) rows).filter
        (fun i => !i.paid)).length ∧
    (build_portal_payload readings rows summary invoices today).finance.unpaid.total =
      (((_enrich_invoices_with_payments
          (_maybe_prepend_latest_charge rows (sortDescBy invSortKey invoices)) rows).filter
        (fun i => !i.paid)).map (fun i => i.amount.getD 0)).sum ∧
    (build_portal_payload readings rows summary invoices today).finance.unpaid.invoices.length ≤ 5 ∧
    (sortDescBy invSortKey invoices).Pairwise (fun x y => invSortKey y ≤ invSortKey x) ∧
    (_maybe_prepend_latest_charge rows (sortDescBy invSortKey invoices) =
        sortDescBy invSortKey invoices ∨
      ∃ syn, _maybe_prepend_latest_charge rows (sortDescBy invSortKey invoices) =
        syn :: sortDescBy invSortKey invoices) := by
  refine ⟨?_, ?_, ?_, ?_, sortDescBy_pairwise _ _, maybePrepend_shape _ _⟩
  · exact congrArg (fun l => l.take 5)
      (enrich_filter_unpaid (_maybe_prepend_latest_charge rows (sortDescBy invSortKey invoices)) rows)
  · exact congrArg List.length
      (enrich_filter_unpaid (_maybe_prepend_latest_charge rows (sortDescBy invSortKey invoices)) rows)
  · exact congrArg (fun l => (l.map (fun i : Invoice => i.amount.getD 0)).sum)
      (enrich_filter_unpaid (_maybe_prepend_latest_charge rows (sortDescBy invSortKey invoices)) rows)
  · exact List.length_take_le 5 _

theorem enrichOne_invSortKey (c p : List (Option Date × ℚ)) (i : Invoice) :
    invSortKey (enrichOne c p i) = invSortKey i := by
  unfold invSortKey
  rw [enrichOne_issue_date, enrichOne_due_date]

/-- C7 counterexample: the code's sort key never falls back to the payment
date.  With invoice A (no issue/due date, reconciled payment dated
2026-01-01) and invoice B (issue date 2025-01-01), the claim's ordering puts
A first, but the reported latest invoice is B: its claim-key 20250101 is
strictly smaller than A's 20260101, so the selected invoice is not the
claim-key maximum of the reconciled list. -/
theorem claim_C7_counterexample :
    (build_portal_payload []
        [{ date := some (Date.mk 2024 1 1), zaduzenje := some 50 },
         { date := some (Date.mk 2026 1 1), uplata := some 50 }] {}
        [{ number := some "A", amount := some 50 },
         { number := some "B", issue_date := some (Date.mk 2025 1 1) }]
        (Date.mk 2026 6 1)).finance.latest_invoice.map claimKeyIssueDuePay =
      some 20250101 ∧
    (build_portal_payload []
        [{ date := some (Date.mk 2024 1 1), zaduzenje := some 50 },
         { date := some (Date.mk 2026 1 1), uplata := some 50 }] {}
        [{ number := some "A", amount := some 50 },
         { number := some "B", issue_date := some (Date.mk 2025 1 1) }]
        (Date.mk 2026 6 1)).recent_invoices.map claimKeyIssueDuePay =
      [20250101, 20260101] ∧
    (20250101 : Nat) < 20260101 := by
  refine ⟨?_, ?_, by decide⟩
  · with_unfolding_all rfl
  · with_unfolding_all rfl

/-- C7 amended: `latest_invoice` is the head of the reconciled list — the
stable descending sort by issue date falling back to due date (no payment
fallback), with a synthetic invoice from the most recent dated
positive-charge ledger row prepended when the newest-sorted invoice's issue
date is absent or older than that charge.  When no synthetic invoice is
prepended the selected invoice carries a maximal issue/due key among the
input invoices; with no invoices at all, the result is the enriched
synthetic invoice built from the first-encountered most recent dated
positive charge, or absent when no such charge exists. -/
theorem claim_C7_amended_latest_selection (readings : List Reading) (rows : List PrometRow)
    (summary : SummaryTotals) (invoices : List Invoice) (today : Date) :
    (build_portal_payload readings rows summary invoices today).finance.latest_invoice =
      (_enrich_invoices_with_payments
        (_maybe_prepend_latest_charge rows (sortDescBy invSortKey invoices)) rows).head? ∧
    (_maybe_prepend_latest_charge rows (sortDescBy invSortKey invoices) =
        sortDescBy invSortKey invoices →
      ∀ L, (build_portal_payload readings rows summary invoices today).finance.latest_invoice =
          some L →
        ∀ inv ∈ invoices, invSortKey inv ≤ invSortKey L) ∧
    (invoices = [] → latestCharge rows = none →
      (build_portal_payload readings rows summary invoices today).finance.latest_invoice =
        none) ∧
    (invoices = [] → ∀ dt r amount, latestCharge rows = some (dt, r, amount) →
      (build_portal_payload readings rows summary invoices today).finance.latest_invoice =
        some (enrichOne (chargeRows rows) (paymentRows rows) (mkSyntheticInvoice dt r amount)) ∧
      ∃ l1 l2, latestChargeCandidates rows = l1 ++ (dt, r, amount) :: l2 ∧
        (∀ x ∈ l1, x.1.toOrdinal < dt.toOrdinal) ∧
        (∀ x ∈ l2, x.1.toOrdinal ≤ dt.toOrdinal)) := by
  refine ⟨rfl, ?_, ?_, ?_⟩
  · intro hpre L hL inv hinv
    have hL2 : (_enrich_invoices_with_payments
        (_maybe_prepend_latest_charge rows (sortDescBy invSortKey invoices)) rows).head? =
        some L := hL
    rw [hpre] at hL2
    cases hs : sortDescBy invSortKey invoices with
    | nil =>
      rw [hs] at hL2
      exact absurd hL2 (by simp [_enrich_invoices_with_payments])
    | cons s0 rest =>
      rw [hs] at hL2
      unfold _enrich_invoices_with_payments at hL2
      rw [List.map_cons, List.head?_cons] at hL2
      injection hL2 with hL3
      rw [← hL3, enrichOne_invSortKey]
      exact sortDescBy_head_max invSortKey invoices s0 rest hs inv hinv
  · intro hinv hlc
    subst hinv
    show (_enrich_invoices_with_payments
        (_maybe_prepend_latest_charge rows (sortDescBy invSortKey [])) rows).head? = none
    have hpre : _maybe_prepend_latest_charge rows [] = [] := by
      unfold _maybe_prepend_latest_charge
      rw [hlc]
    rw [show sortDescBy invSortKey ([] : List Invoice) = [] from rfl, hpre]
    rfl
  · intro hinv dt r amount hlc
    subst hinv
    constructor
    · show (_enrich_invoices_with_payments
          (_maybe_prepend_latest_charge rows (sortDescBy invSortKey [])) rows).head? = _
      have hpre : _maybe_prepend_latest_charge rows [] =
          [mkSyntheticInvoice dt r amount] := by
        unfold _maybe_prepend_latest_charge
        rw [hlc]
      rw [show sortDescBy invSortKey ([] : List Invoice) = [] from rfl, hpre]
      rfl
    · unfold latestCharge at hlc
      cases hsel : selectFirstMin (fun _ => true)
          (fun c => OrderDual.toDual c.1.toOrdinal) (latestChargeCandidates rows) with
      | none => rw [hsel] at hlc; cases hlc
      | some cs =>
        rw [hsel] at hlc
        obtain ⟨c, s⟩ := cs
        have hc : c = (dt, r, amount) := by
          simpa using hlc
        subst hc
        have hspec := (selectFirstMin_spec (fun _ => true)
          (fun c => OrderDual.toDual c.1.toOrdinal) (latestChargeCandidates rows)).2
          (dt, r, amount) s hsel
        obtain ⟨hs2, l1, l2, hdec, h1, h2⟩ := hspec
        rw [List.filter_true] at hdec
        refine ⟨l1, l2, hdec, ?_, ?_⟩
        · intro x hx
          simpa using h1 x hx
        · intro x hx
          simpa using h2 x hx

theorem claim_C7_witness :
    (build_portal_payload [] [] {} [] (Date.mk 2025 6 1)).finance.latest_invoice = none :=
  (claim_C7_amended_latest_selection [] [] {} [] (Date.mk 2025 6 1)).2.2.1 rfl rfl

/-- C5 counterexample: the claim maps every two-digit year YY to 2000 + YY,
but `_parse_hr_short_date` inherits the CPython strptime pivot, sending
"31.1.69" to 1969-01-31 instead of 2069-01-31. -/
theorem claim_C5_counterexample :
    _parse_hr_short_date (some "31.1.69") = some (Date.mk 1969 1 31) ∧
      (1969 : Nat) ≠ 2000 + 69 := by
  exact ⟨rfl, by decide⟩

/-- C5 amended: the numeric date parser accepts `D.M.YYYY` and `D.M.YY`
(shown for every day/month at year 2025, and for every two-digit year at
31.1.YY), returns absent rather than raising on malformed calendar values
(the acceptance equation below returns `none` exactly when the
`date(y, m, d)` constructor would raise, and every returned date is valid),
and maps the two-digit year YY to 2000+YY for YY ≤ 68 but to 1900+YY for
YY ≥ 69 (the strptime pivot); the sibling revision's `_parse_hr_date` maps
every two-digit year to 2000+YY.  Both example strings "31.01.2025" and
"31.1.25" parse to 2025-01-31. -/
theorem claim_C5_amended_numeric_dates :
    (∀ dv, dv < 32 → ∀ mv, mv < 13 →
      _parse_hr_short_date (some (mkNumDateStr dv mv ['2', '0', '2', '5'])) =
        (if (Date.mk 2025 mv dv).valid then some (Date.mk 2025 mv dv) else none)) ∧
    (∀ yy, yy < 100 →
      _parse_hr_short_date (some (mkNumDateStr 31 1 (pad2 yy))) =
        some (Date.mk (strptimeYearPivot yy) 1 31)) ∧
    (∀ yy, yy < 100 →
      _parse_hr_date (some (mkNumDateStr 31 1 (pad2 yy))) =
        some (Date.mk (2000 + yy) 1 31)) ∧
    _parse_hr_short_date (some "31.01.2025") = some (Date.mk 2025 1 31) ∧
    _parse_hr_short_date (some "31.1.25") = some (Date.mk 2025 1 31) ∧
    _parse_hr_short_date (some "31.04.2025") = none ∧
    (∀ s, (_parse_hr_short_date s).all Date.valid = true) ∧
    (∀ s, (_parse_hr_date s).all Date.valid = true) := by
  refine ⟨by decide, by decide, by decide, rfl, rfl, rfl,
    shortDate_all_valid, hrDate_all_valid⟩

theorem claim_C5_witness :
    _parse_hr_short_date (some (mkNumDateStr 31 1 (pad2 69))) =
      some (Date.mk (strptimeYearPivot 69) 1 31) :=
  claim_C5_amended_numeric_dates.2.1 69 (by decide)

end PisAddon
